import Mathlib

/-!
Formal model of `src/app.py` — "This Day in History — Newspapers" (loc.gov
Chronicling America).  Pure shallow embedding: calendar dates are records of
naturals, JSON documents are an inductive type, the network is an explicit
oracle argument (`Fetch`), and every Python function the decade scanner
relies on is translated to a total, executable Lean function.
-/

set_option autoImplicit false

/-- A proleptic Gregorian calendar date, as Python's `datetime.date`. -/
structure Date where
  year : Nat
  month : Nat
  day : Nat
  deriving DecidableEq, Repr

/-- The leap-year rule of `datetime.date`. -/
def isLeap (y : Nat) : Bool :=
  (y % 4 == 0 && y % 100 != 0) || (y % 400 == 0)

/-- Length of a month in `datetime.date`'s calendar. -/
def daysInMonth (y m : Nat) : Nat :=
  if m = 2 then (if isLeap y then 29 else 28)
  else if m = 4 ∨ m = 6 ∨ m = 9 ∨ m = 11 then 30 else 31

/-- The date values `datetime.date` represents (no upper year bound modelled). -/
def validDate (d : Date) : Prop :=
  1 ≤ d.year ∧ 1 ≤ d.month ∧ d.month ≤ 12 ∧ 1 ≤ d.day ∧ d.day ≤ daysInMonth d.year d.month

instance (d : Date) : Decidable (validDate d) := by
  unfold validDate; infer_instance

/-- The day after a date: adding `timedelta(days=1)`. -/
def succDate (d : Date) : Date :=
  if d.day < daysInMonth d.year d.month then ⟨d.year, d.month, d.day + 1⟩
  else if d.month < 12 then ⟨d.year, d.month + 1, 1⟩
  else ⟨d.year + 1, 1, 1⟩

/-- The day before a date: subtracting `timedelta(days=1)`. -/
def predDate (d : Date) : Date :=
  if 2 ≤ d.day then ⟨d.year, d.month, d.day - 1⟩
  else if 2 ≤ d.month then ⟨d.year, d.month - 1, daysInMonth d.year (d.month - 1)⟩
  else ⟨d.year - 1, 12, 31⟩

/-- `d + timedelta(days=n)`. -/
def addDays (d : Date) : Nat → Date
  | 0 => d
  | n + 1 => succDate (addDays d n)

/-- `d - timedelta(days=n)`. -/
def subDays (d : Date) : Nat → Date
  | 0 => d
  | n + 1 => predDate (subDays d n)

/-- Chronological order on dates (year, then month, then day). -/
def dateLe (a b : Date) : Prop :=
  a.year < b.year ∨ (a.year = b.year ∧ (a.month < b.month ∨ (a.month = b.month ∧ a.day ≤ b.day)))

instance (a b : Date) : Decidable (dateLe a b) := by
  unfold dateLe; infer_instance

/-- Zero-pad a numeral string on the left, as `date.isoformat` does. -/
def padZeros (len : Nat) (s : String) : String :=
  ⟨List.replicate (len - s.data.length) '0' ++ s.data⟩

/-- `date.isoformat()`: `YYYY-MM-DD`. -/
def isoformat (d : Date) : String :=
  padZeros 4 (toString d.year) ++ "-" ++ padZeros 2 (toString d.month) ++ "-" ++
    padZeros 2 (toString d.day)

/-- `clamp_day` from app.py: the last day of the month is found by stepping
back one day from the first of the next month; the requested day is clamped
into `[1, last_day]`. -/
def clamp_day (year month day : Nat) : Nat :=
  let next_month : Date := if month = 12 then ⟨year + 1, 1, 1⟩ else ⟨year, month + 1, 1⟩
  let last_day := (predDate next_month).day
  max 1 (min day last_day)

/-- The pair of `datetime.date` values computed inside `make_window`, before
they are rendered with `isoformat`. -/
def make_window_dates (year month day window_days : Nat) : Date × Date :=
  let center : Date := ⟨year, month, clamp_day year month day⟩
  (subDays center window_days, addDays center window_days)

/-- `make_window` from app.py: the ±`window_days` query window, as ISO strings. -/
def make_window (year month day window_days : Nat) : String × String :=
  let w := make_window_dates year month day window_days
  (isoformat w.1, isoformat w.2)

/-- JSON documents (`json.loads` results).  Numbers are modelled as integers;
the program never inspects numeric payload fields. -/
inductive Json where
  | null
  | bool (b : Bool)
  | num (n : Int)
  | str (s : String)
  | arr (elems : List Json)
  | obj (fields : List (String × Json))

/-- First binding of a key in a JSON object's field list (Python dict lookup;
the dicts produced by `json.loads` have unique keys). -/
def lookupField : List (String × Json) → String → Option Json
  | [], _ => none
  | (k, v) :: rest, key => if k = key then some v else lookupField rest key

/-- Python `item.get(key)`: `none` when the key is absent. -/
def Json.get : Json → String → Option Json
  | .obj fields, key => lookupField fields key
  | _, _ => none

/-- Python truthiness of a JSON value (`if payload:`). -/
def Json.truthy : Json → Bool
  | .null => false
  | .bool b => b
  | .num n => n != 0
  | .str s => s != ""
  | .arr xs => !xs.isEmpty
  | .obj fs => !fs.isEmpty

/-- Whether a JSON value is an object (a Python dict). -/
def Json.isObj : Json → Bool
  | .obj _ => true
  | _ => false

/-- Python `str.strip()` on a character list. -/
def trimChars (cs : List Char) : List Char :=
  ((cs.dropWhile Char.isWhitespace).reverse.dropWhile Char.isWhitespace).reverse

/-- Python `str.strip()`. -/
def trimStr (s : String) : String :=
  ⟨trimChars s.data⟩

/-- Numeric value of a decimal digit character. -/
def digitVal (c : Char) : Nat := c.toNat - 48

/-- `datetime.date.fromisoformat` on a 10-character `YYYY-MM-DD` candidate:
the characters must be four digits, a dash, two digits, a dash, two digits,
and the resulting numbers must form a valid calendar date (year at least 1).
Returns `none` where Python raises `ValueError`. -/
def parseDateChars (cs : List Char) : Option Date :=
  match cs with
  | [a, b, c, d, '-', e, f, '-', g, h] =>
    if a.isDigit && b.isDigit && c.isDigit && d.isDigit &&
       e.isDigit && f.isDigit && g.isDigit && h.isDigit then
      let y := 1000 * digitVal a + 100 * digitVal b + 10 * digitVal c + digitVal d
      let m := 10 * digitVal e + digitVal f
      let dd := 10 * digitVal g + digitVal h
      if 1 ≤ y ∧ 1 ≤ m ∧ m ≤ 12 ∧ 1 ≤ dd ∧ dd ≤ daysInMonth y m then
        some ⟨y, m, dd⟩
      else none
    else none
  | _ => none

/-- `parse_iso10` from app.py: strip the string, require at least 10
characters, and read the first 10 as an ISO `YYYY-MM-DD` date. -/
def parse_iso10 (s : String) : Option Date :=
  let cs := trimChars s.data
  if 10 ≤ cs.length then parseDateChars (cs.take 10) else none

/-- One step of `re.search(r"/(\d{4}-\d{2}-\d{2})/", u)`: if the list starts
with a `/dddd-dd-dd/` segment, return the 10 date characters. -/
def dateSegHere : List Char → Option (List Char)
  | '/' :: a :: b :: c :: d :: '-' :: e :: f :: '-' :: g :: h :: '/' :: _ =>
    if a.isDigit && b.isDigit && c.isDigit && d.isDigit &&
       e.isDigit && f.isDigit && g.isDigit && h.isDigit then
      some [a, b, c, d, '-', e, f, '-', g, h]
    else none
  | _ => none

/-- The leftmost `/dddd-dd-dd/` segment of a character list, as `re.search`
finds it. -/
def findDateSeg : List Char → Option (List Char)
  | [] => none
  | c :: rest =>
    match dateSegHere (c :: rest) with
    | some ds => some ds
    | none => findDateSeg rest

/-- Date embedded in a URL path: the first `/YYYY-MM-DD/` segment, if it also
parses as a valid calendar date (`fromisoformat` inside `try`/`except`). -/
def urlDate (s : String) : Option Date :=
  (findDateSeg s.data).bind parseDateChars

/-- The scalar-or-list reading of one date-bearing field in `parse_item_date`:
a string is parsed directly; for a list, the elements are scanned in order and
the first string element that parses wins; other shapes yield nothing. -/
def dateFromKeyVal : Json → Option Date
  | .str s => parse_iso10 s
  | .arr xs => firstParsedStr xs
  | _ => none
where
  firstParsedStr : List Json → Option Date
    | [] => none
    | .str s :: rest =>
      match parse_iso10 s with
      | some d => some d
      | none => firstParsedStr rest
    | _ :: rest => firstParsedStr rest

/-- The `for key in (...)` loop of `parse_item_date`: try each date-bearing
field in order. -/
def tryKeys (item : Json) : List String → Option Date
  | [] => none
  | k :: ks =>
    match item.get k with
    | some v =>
      match dateFromKeyVal v with
      | some d => some d
      | none => tryKeys item ks
    | none => tryKeys item ks

/-- The `aka` block of `parse_item_date`: a list of URLs is scanned in order
(per URL only the first `/YYYY-MM-DD/` segment is tried); a string URL is
tried directly; other shapes yield nothing. -/
def akaDate (item : Json) : Option Date :=
  match item.get "aka" with
  | some (.arr us) => firstUrlDate us
  | some (.str s) => urlDate s
  | _ => none
where
  firstUrlDate : List Json → Option Date
    | [] => none
    | .str s :: rest =>
      match urlDate s with
      | some d => some d
      | none => firstUrlDate rest
    | _ :: rest => firstUrlDate rest

/-- The final `url` block of `parse_item_date`. -/
def canonicalUrlDate (item : Json) : Option Date :=
  match item.get "url" with
  | some (.str s) => urlDate s
  | _ => none

/-- `parse_item_date` from app.py: scalar/list date fields first, then dates
embedded in `aka` URLs, then the canonical `url`. -/
def parse_item_date (item : Json) : Option Date :=
  match tryKeys item ["date", "created_published_date", "created_published"] with
  | some d => some d
  | none =>
    match akaDate item with
    | some d => some d
    | none => canonicalUrlDate item

/-- `parse_results` from app.py: the `results` field if it is a list, else `[]`. -/
def parse_results (payload : Json) : List Json :=
  match payload.get "results" with
  | some (.arr xs) => xs
  | _ => []

/-- The per-record test of `filter_exact_month_day`:
`d and d.month == month and d.day == day`. -/
def matchesMD (item : Json) (month day : Nat) : Bool :=
  match parse_item_date item with
  | some dd => dd.month == month && dd.day == day
  | none => false

/-- `filter_exact_month_day` from app.py: keep, in order, the records whose
derived date has the target month and day. -/
def filter_exact_month_day : List Json → Nat → Nat → List Json
  | [], _, _ => []
  | item :: rest, month, day =>
    if matchesMD item month day then item :: filter_exact_month_day rest month day
    else filter_exact_month_day rest month day

/-- `BASE_COLLECTION_URL` from app.py. -/
def BASE_COLLECTION_URL : String := "https://www.loc.gov/collections/chronicling-america/"

/-- The characters `urllib.parse.quote_plus` never escapes. -/
def urlSafeChar (c : Char) : Bool :=
  c.isAlphanum || c = '_' || c = '.' || c = '-' || c = '~'

/-- Uppercase hexadecimal digit. -/
def hexDigitChar (n : Nat) : Char :=
  if n < 10 then Char.ofNat (48 + n) else Char.ofNat (55 + n)

/-- UTF-8 encoding of one character, as byte values. -/
def utf8Bytes (c : Char) : List Nat :=
  let n := c.toNat
  if n < 128 then [n]
  else if n < 2048 then [192 + n / 64, 128 + n % 64]
  else if n < 65536 then [224 + n / 4096, 128 + n / 64 % 64, 128 + n % 64]
  else [240 + n / 262144, 128 + n / 4096 % 64, 128 + n / 64 % 64, 128 + n % 64]

/-- `urllib.parse.quote_plus` on one character. -/
def quotePlusChar (c : Char) : List Char :=
  if urlSafeChar c then [c]
  else if c = ' ' then ['+']
  else (utf8Bytes c).foldr (fun b acc => '%' :: hexDigitChar (b / 16) :: hexDigitChar (b % 16) :: acc) []

/-- `urllib.parse.quote_plus`. -/
def quote_plus (s : String) : String :=
  ⟨(s.data.map quotePlusChar).flatten⟩

/-- Join strings with a separator. -/
def joinSep (sep : String) : List String → String
  | [] => ""
  | [x] => x
  | x :: y :: rest => x ++ sep ++ joinSep sep (y :: rest)

/-- `urllib.parse.urlencode` over an ordered parameter list. -/
def urlencode (ps : List (String × String)) : String :=
  joinSep "&" (ps.map (fun kv => quote_plus kv.1 ++ "=" ++ quote_plus kv.2))

/-- Python `str.split()` with no argument: whitespace runs separate tokens,
empty tokens never appear. -/
def pySplitAux : List Char → List Char → List String
  | [], acc => if acc.isEmpty then [] else [⟨acc.reverse⟩]
  | c :: rest, acc =>
    if c.isWhitespace then
      if acc.isEmpty then pySplitAux rest [] else ⟨acc.reverse⟩ :: pySplitAux rest []
    else pySplitAux rest (c :: acc)

/-- Python `str.split()`. -/
def pySplit (s : String) : List String :=
  pySplitAux s.data []

/-- The parameter dict of `build_query_url` after its first block: the fixed
parameters, the clamped count, and the optional `front_pages_only` flag
(present only when the flag is set — absence is the signal). -/
def query_params_base (start_date end_date : String) (front_pages_only : Bool)
    (dl : String) (count : Int) : List (String × String) :=
  if front_pages_only then
    [("fo", "json"), ("dl", dl), ("start_date", start_date), ("end_date", end_date),
     ("c", toString (max 1 (min count 100))), ("front_pages_only", "true")]
  else
    [("fo", "json"), ("dl", dl), ("start_date", start_date), ("end_date", end_date),
     ("c", toString (max 1 (min count 100)))]

/-- The parameter dict after the keyword block: when the stripped keyword is
non-empty, the whitespace-normalized `qs` plus `ops`/`searchType` are added;
otherwise nothing keyword-related appears at all. -/
def query_params_kw (start_date end_date keyword : String) (front_pages_only : Bool)
    (dl : String) (count : Int) : List (String × String) :=
  if trimStr keyword = "" then
    query_params_base start_date end_date front_pages_only dl count
  else
    query_params_base start_date end_date front_pages_only dl count ++
      [("qs", joinSep "+" (pySplit (trimStr keyword))), ("ops", "AND"),
       ("searchType", "Advanced")]

/-- The complete ordered query-parameter list built by `build_query_url`:
`location_state` is appended only when the state is neither empty nor
`"ALL"`. -/
def query_params (start_date end_date state keyword : String) (front_pages_only : Bool)
    (dl : String) (count : Int) : List (String × String) :=
  if state = "" ∨ state = "ALL" then
    query_params_kw start_date end_date keyword front_pages_only dl count
  else
    query_params_kw start_date end_date keyword front_pages_only dl count ++
      [("location_state", state)]

/-- First value bound to a key in a parameter list. -/
def lookupParam : List (String × String) → String → Option String
  | [], _ => none
  | (k, v) :: rest, key => if k = key then some v else lookupParam rest key

/-- `build_query_url` from app.py. -/
def build_query_url (start_date end_date state keyword : String) (front_pages_only : Bool)
    (dl : String) (count : Int) : String :=
  BASE_COLLECTION_URL ++ "?" ++
    urlencode (query_params start_date end_date state keyword front_pages_only dl count)

/-- The debug dictionary built by `fetch_json_debug`. -/
structure Debug where
  ok : Bool
  status : Option Nat
  content_type : Option String
  error : Option String
  snippet : Option String
  url : String
  deriving DecidableEq, Repr

/-- What one `urllib.request.urlopen` call did: a transport-level exception
(DNS/TLS/timeout), an `HTTPError` (4xx/5xx, body readable or not), or a
response with a status, a `Content-Type` header and a decoded body. -/
inductive HttpResult where
  | transportError (excName excMsg : String)
  | httpError (code : Nat) (reason : String) (body : Option String)
  | success (status : Option Nat) (contentType : String) (body : String)

/-- Python `text[:n]` (the first `n` characters). -/
def strTake (n : Nat) (s : String) : String :=
  ⟨s.data.take n⟩

/-- ASCII lowercasing, as applied to `Content-Type` values. -/
def lowerStr (s : String) : String :=
  ⟨s.data.map Char.toLower⟩

/-- Whether `needle` occurs as a contiguous substring of `hay`
(Python `needle in hay`). -/
def containsSubAux (n : List Char) : List Char → Bool
  | [] => n.isEmpty
  | c :: rest => n.isPrefixOf (c :: rest) || containsSubAux n rest

/-- Python `needle in hay` on strings. -/
def containsSub (needle hay : String) : Bool :=
  containsSubAux needle.data hay.data

/-- `fetch_json_debug` from app.py, with the network call's result passed in
explicitly and JSON parsing abstracted as an oracle (the exception text of a
failed parse is abstracted away).  Classification order: transport failure,
HTTP error, non-JSON content type, parse failure, success. -/
def fetch_json_debug (parseJson : String → Option Json) (url : String) (r : HttpResult) :
    Option Json × Debug :=
  match r with
  | .transportError excName excMsg =>
    (none, { ok := false, status := none, content_type := none,
             error := some (excName ++ ": " ++ excMsg), snippet := none, url := url })
  | .httpError code reason body =>
    (none, { ok := false, status := some code, content_type := none,
             error := some ("HTTPError " ++ toString code ++ ": " ++ reason),
             snippet := body.map (strTake 800), url := url })
  | .success status contentType body =>
    if containsSub "json" (lowerStr contentType) = false then
      (none, { ok := false, status := status, content_type := some contentType,
               error := some ("Non-JSON response (Content-Type: " ++ contentType ++ ")"),
               snippet := some (strTake 800 body), url := url })
    else
      match parseJson body with
      | some payload =>
        (some payload, { ok := true, status := status, content_type := some contentType,
                         error := none, snippet := none, url := url })
      | none =>
        (none, { ok := false, status := status, content_type := some contentType,
                 error := some "JSON parse failed", snippet := some (strTake 800 body), url := url })

/-- The network as the scanner sees it: each request URL yields a parsed
payload (or `none`) and a debug dictionary. -/
abbrev Fetch := String → Option Json × Debug

/-- The tuple returned by `decade_step_most_recent`, with named fields:
`(year, item, url, dbg, count, win)`.  The empty Python dict used as the
initial `last_debug` is modelled as `none`. -/
structure ScanResult where
  year : Option Nat
  item : Option Json
  url : String
  dbg : Option Debug
  count : Nat
  win : String × String

/-- The query window `query_year` builds for year `y`. -/
def windowFor (month day y : Nat) : String × String :=
  make_window y month day 3

/-- The request URL `query_year` builds for year `y` (count fixed at 100). -/
def urlFor (month day : Nat) (state keyword : String) (front_pages_only : Bool) (y : Nat) : String :=
  build_query_url (windowFor month day y).1 (windowFor month day y).2 state keyword
    front_pages_only "page" 100

/-- The payload `query_year` obtains for year `y`. -/
def payloadFor (fetch : Fetch) (month day : Nat) (state keyword : String)
    (front_pages_only : Bool) (y : Nat) : Option Json :=
  (fetch (urlFor month day state keyword front_pages_only y)).1

/-- The debug dictionary `query_year` obtains for year `y`. -/
def dbgFor (fetch : Fetch) (month day : Nat) (state keyword : String)
    (front_pages_only : Bool) (y : Nat) : Debug :=
  (fetch (urlFor month day state keyword front_pages_only y)).2

/-- The exact-match list computed for year `y` (empty when the fetch failed). -/
def exactFor (fetch : Fetch) (month day : Nat) (state keyword : String)
    (front_pages_only : Bool) (y : Nat) : List Json :=
  match payloadFor fetch month day state keyword front_pages_only y with
  | some p => filter_exact_month_day (parse_results p) month day
  | none => []

/-- Whether year `y` counts as a hit in the scan loops: the payload must be
present, truthy, and yield at least one exact match. -/
def hitFor (fetch : Fetch) (month day : Nat) (state keyword : String)
    (front_pages_only : Bool) (y : Nat) : Bool :=
  match payloadFor fetch month day state keyword front_pages_only y with
  | some p => p.truthy && !(filter_exact_month_day (parse_results p) month day).isEmpty
  | none => false

/-- Phase 1 of `decade_step_most_recent`: walk the candidate anchor years,
updating `last_debug` at every probe, and stop at the first hit. -/
def phase1 (fetch : Fetch) (month day : Nat) (state keyword : String) (front_pages_only : Bool) :
    List Nat → Option Debug → Option Nat × Option Debug
  | [], last => (none, last)
  | y :: ys, _last =>
    if hitFor fetch month day state keyword front_pages_only y then
      (some y, some (dbgFor fetch month day state keyword front_pages_only y))
    else phase1 fetch month day state keyword front_pages_only ys
      (some (dbgFor fetch month day state keyword front_pages_only y))

/-- Phase 2 of `decade_step_most_recent`: walk the candidate years, updating
`last_debug` at every probe; at the first hit return that year, its first
exact match, the URL, the debug dictionary, the exact count, and the window. -/
def phase2 (fetch : Fetch) (month day : Nat) (state keyword : String) (front_pages_only : Bool) :
    List Nat → Option Debug → ScanResult
  | [], last => ⟨none, none, "", last, 0, ("", "")⟩
  | y :: ys, _last =>
    if hitFor fetch month day state keyword front_pages_only y then
      ⟨some y, (exactFor fetch month day state keyword front_pages_only y).head?,
       urlFor month day state keyword front_pages_only y,
       some (dbgFor fetch month day state keyword front_pages_only y),
       (exactFor fetch month day state keyword front_pages_only y).length,
       windowFor month day y⟩
    else phase2 fetch month day state keyword front_pages_only ys
      (some (dbgFor fetch month day state keyword front_pages_only y))

/-- `list(range(1960, 1689, -10))`: the decade anchors 1960, 1950, …, 1690. -/
def scanYears : List Nat := (List.range 28).map (fun i => 1960 - 10 * i)

/-- `[top, top - 1, …]` with `n` entries (Python `range(top, top - n, -1)`). -/
def descList (top : Nat) : Nat → List Nat
  | 0 => []
  | n + 1 => top :: descList (top - 1) n

/-- `range(min(hit + 9, 1963), hit - 1, -1)`: the Phase 2 probe order. -/
def phase2Years (hit : Nat) : List Nat :=
  descList (min (hit + 9) 1963) (min (hit + 9) 1963 + 1 - hit)

/-- `decade_step_most_recent` from app.py. -/
def decade_step_most_recent (fetch : Fetch) (month day : Nat) (state keyword : String)
    (front_pages_only : Bool) : ScanResult :=
  match phase1 fetch month day state keyword front_pages_only scanYears none with
  | (some hit, last) =>
    phase2 fetch month day state keyword front_pages_only (phase2Years hit) last
  | (none, last) => ⟨none, none, "", last, 0, ("", "")⟩

/-- The years on which Phase 1 issues a network call: every anchor up to and
including the first hit (all of them when no anchor hits). -/
def phase1Probed (fetch : Fetch) (month day : Nat) (state keyword : String)
    (front_pages_only : Bool) : List Nat → List Nat
  | [] => []
  | y :: ys =>
    if hitFor fetch month day state keyword front_pages_only y then [y]
    else y :: phase1Probed fetch month day state keyword front_pages_only ys

/-- The years on which Phase 2 issues a network call. -/
def phase2Probed (fetch : Fetch) (month day : Nat) (state keyword : String)
    (front_pages_only : Bool) : List Nat → List Nat
  | [] => []
  | y :: ys =>
    if hitFor fetch month day state keyword front_pages_only y then [y]
    else y :: phase2Probed fetch month day state keyword front_pages_only ys

/-- Every year `decade_step_most_recent` issues a network call for, in order:
it mirrors the two loops of the source, each stopping at its first hit. -/
def probedYears (fetch : Fetch) (month day : Nat) (state keyword : String)
    (front_pages_only : Bool) : List Nat :=
  match (phase1 fetch month day state keyword front_pages_only scanYears none).1 with
  | some hit =>
    phase1Probed fetch month day state keyword front_pages_only scanYears ++
      phase2Probed fetch month day state keyword front_pages_only (phase2Years hit)
  | none => phase1Probed fetch month day state keyword front_pages_only scanYears

/-- Payloads on which the Python scanner is defined: a parsed payload must be
a dict, and its `results` entries must be dicts. -/
def payloadWF : Option Json → Bool
  | none => true
  | some p => p.isObj && (parse_results p).all Json.isObj

/-- A network oracle all of whose successful payloads are well-formed. -/
def fetchWF (fetch : Fetch) : Prop :=
  ∀ u, payloadWF ((fetch u).1) = true

/-- One date-bearing field read as the specification words it: "a scalar or
the first element of a list".  Used only to compare the specified chain with
the implemented one. -/
def specKeyVal : Json → Option Date
  | .str s => parse_iso10 s
  | .arr (x :: _) =>
    match x with
    | .str s => parse_iso10 s
    | _ => none
  | _ => none

/-- One named date field under the specification's reading. -/
def specKeyDate (item : Json) (k : String) : Option Date :=
  match item.get k with
  | some v => specKeyVal v
  | none => none

/-- The date-derivation chain exactly as the specification describes it:
primary `date` field (scalar or first list element), then the published-date
fields with the same rule, then `aka` URLs, then the canonical `url`. -/
def parse_item_date_spec (item : Json) : Option Date :=
  match specKeyDate item "date" with
  | some d => some d
  | none =>
    match specKeyDate item "created_published_date" with
    | some d => some d
    | none =>
      match specKeyDate item "created_published" with
      | some d => some d
      | none =>
        match akaDate item with
        | some d => some d
        | none => canonicalUrlDate item

/-- A record carrying an exact July 4 date in its `date` field. -/
def demoRec : Json := .obj [("date", .str "1963-07-04")]

/-- A payload whose `results` list holds exactly `demoRec`. -/
def demoPayload : Json := .obj [("results", .arr [demoRec])]

/-- A debug dictionary for a successful JSON response. -/
def demoDbg : Debug :=
  { ok := true, status := some 200, content_type := some "application/json",
    error := none, snippet := none, url := "" }

/-- An oracle that answers every request with `demoPayload`. -/
def demoFetch : Fetch := fun u => (some demoPayload, { demoDbg with url := u })

/-- An oracle on which every request fails at the transport level. -/
def failFetch : Fetch :=
  fun u => (none, { ok := false, status := none, content_type := none,
                    error := some "URLError: boom", snippet := none, url := u })

/-- An oracle that answers every request with an empty JSON object. -/
def emptyObjFetch : Fetch := fun u => (some (Json.obj []), { demoDbg with url := u })

/-- A record whose `date` list starts with an unparseable element and whose
secondary date field holds a different date. -/
def conflictItem : Json :=
  .obj [("date", .arr [.str "notadate", .str "1924-10-15"]),
        ("created_published_date", .str "1900-01-01")]

/-- A record whose only date is embedded in an `aka` URL. -/
def urlOnlyItem : Json :=
  .obj [("aka", .arr [.str "https://www.loc.gov/resource/xyz/1924-10-15/"])]

/-- A record whose scalar `date` field conflicts with the date in its URL. -/
def conflictScalarUrlItem : Json :=
  .obj [("date", .str "1924-10-15"), ("url", .str "https://example.com/1900-01-01/")]

/-! ## Calendar lemmas -/

theorem daysInMonth_ge (y m : Nat) : 28 ≤ daysInMonth y m := by
  unfold daysInMonth; split_ifs <;> omega

theorem daysInMonth_le (y m : Nat) : daysInMonth y m ≤ 31 := by
  unfold daysInMonth; split_ifs <;> omega

theorem daysInMonth_12 (y : Nat) : daysInMonth y 12 = 31 := rfl

theorem succDate_valid (d : Date) (h : validDate d) : validDate (succDate d) := by
  obtain ⟨h1, h2, h3, h4, h5⟩ := h
  have g1 := daysInMonth_ge (d.year + 1) 1
  have g2 := daysInMonth_ge d.year (d.month + 1)
  unfold succDate validDate
  split_ifs <;> dsimp only <;> omega

theorem predDate_valid_A (d : Date) (h : validDate d) (hy : 2 ≤ d.year) :
    validDate (predDate d) ∧
      (2 ≤ (predDate d).year ∨ ((predDate d).month = 12 ∧ 30 ≤ (predDate d).day)) := by
  obtain ⟨h1, h2, h3, h4, h5⟩ := h
  have g1 := daysInMonth_ge d.year (d.month - 1)
  have g2 := daysInMonth_le d.year (d.month - 1)
  have h12 := daysInMonth_12 (d.year - 1)
  unfold predDate validDate
  split_ifs <;> dsimp only <;> omega

theorem predDate_valid_B (d : Date) (h : validDate d) (hm : d.month = 12) (hd : 30 ≤ d.day) :
    validDate (predDate d) ∧ (predDate d).month = 12 ∧ 29 ≤ (predDate d).day := by
  obtain ⟨h1, h2, h3, h4, h5⟩ := h
  unfold predDate validDate
  split_ifs <;> dsimp only <;> omega

theorem predDate_valid_C (d : Date) (h : validDate d) (hm : d.month = 12) (hd : 29 ≤ d.day) :
    validDate (predDate d) := by
  obtain ⟨h1, h2, h3, h4, h5⟩ := h
  unfold predDate validDate
  split_ifs <;> dsimp only <;> omega

theorem predDate_le (d : Date) (h1 : 1 ≤ d.year) : dateLe (predDate d) d := by
  unfold predDate dateLe
  split_ifs <;> dsimp only <;> omega

theorem le_succDate (d : Date) : dateLe d (succDate d) := by
  unfold succDate dateLe
  split_ifs <;> dsimp only <;> omega

theorem dateLe_trans (a b c : Date) (h1 : dateLe a b) (h2 : dateLe b c) : dateLe a c := by
  unfold dateLe at h1 h2 ⊢
  omega

theorem subDays_three (d : Date) (h : validDate d) (hy : 2 ≤ d.year) :
    validDate (subDays d 3) ∧ dateLe (subDays d 3) d := by
  have hsub : subDays d 3 = predDate (predDate (predDate d)) := rfl
  obtain ⟨hv1, hr1⟩ := predDate_valid_A d h hy
  have hv2 : validDate (predDate (predDate d)) := by
    rcases hr1 with hy1 | ⟨hm1, hd1⟩
    · exact (predDate_valid_A _ hv1 hy1).1
    · exact (predDate_valid_B _ hv1 hm1 hd1).1
  have hv3 : validDate (predDate (predDate (predDate d))) := by
    rcases hr1 with hy1 | ⟨hm1, hd1⟩
    · obtain ⟨hv2a, hr2⟩ := predDate_valid_A _ hv1 hy1
      rcases hr2 with hy2 | ⟨hm2, hd2⟩
      · exact (predDate_valid_A _ hv2a hy2).1
      · exact predDate_valid_C _ hv2a hm2 (by omega)
    · obtain ⟨hv2a, hm2, hd2⟩ := predDate_valid_B _ hv1 hm1 hd1
      exact predDate_valid_C _ hv2a hm2 hd2
  rw [hsub]
  refine ⟨hv3, ?_⟩
  have l1 : dateLe (predDate d) d := predDate_le d h.1
  have l2 : dateLe (predDate (predDate d)) (predDate d) := predDate_le _ hv1.1
  have l3 : dateLe (predDate (predDate (predDate d))) (predDate (predDate d)) :=
    predDate_le _ hv2.1
  exact dateLe_trans _ _ _ (dateLe_trans _ _ _ l3 l2) l1

theorem addDays_three (d : Date) (h : validDate d) :
    validDate (addDays d 3) ∧ dateLe d (addDays d 3) := by
  have hadd : addDays d 3 = succDate (succDate (succDate d)) := rfl
  have hv1 := succDate_valid d h
  have hv2 := succDate_valid _ hv1
  have hv3 := succDate_valid _ hv2
  rw [hadd]
  refine ⟨hv3, ?_⟩
  exact dateLe_trans _ _ _ (dateLe_trans _ _ _ (le_succDate d) (le_succDate _)) (le_succDate _)

theorem clamp_day_eq (y m d : Nat) (hm1 : 1 ≤ m) (hm2 : m ≤ 12) :
    clamp_day y m d = max 1 (min d (daysInMonth y m)) := by
  unfold clamp_day
  by_cases h12 : m = 12
  · subst h12
    have hp : predDate ⟨y + 1, 1, 1⟩ = ⟨y, 12, 31⟩ := by
      unfold predDate; simp
    simp [hp, daysInMonth_12]
  · have hp : predDate ⟨y, m + 1, 1⟩ = ⟨y, m, daysInMonth y m⟩ := by
      unfold predDate
      simp only [show ¬ (2 ≤ (⟨y, m + 1, 1⟩ : Date).day) from by simp, if_neg,
        show (2 ≤ (⟨y, m + 1, 1⟩ : Date).month) from by simp; omega, if_pos]
      simp
    simp [h12, hp]

/-- C9: for every (year, month, day) in the domain of `datetime.date`
(month in 1..12, year at least 2 so that the 3-day backward step stays on the
calendar), `make_window` with radius 3 centres the window on the target date
with the day clamped into the month's valid range, both window ends are valid
calendar dates, and start ≤ centre ≤ end; in particular no invalid calendar
date is ever produced. -/
theorem claim_C9 (year month day : Nat) (hy : 2 ≤ year) (hm1 : 1 ≤ month) (hm2 : month ≤ 12) :
    validDate ⟨year, month, clamp_day year month day⟩ ∧
    validDate (make_window_dates year month day 3).1 ∧
    validDate (make_window_dates year month day 3).2 ∧
    dateLe (make_window_dates year month day 3).1 ⟨year, month, clamp_day year month day⟩ ∧
    dateLe ⟨year, month, clamp_day year month day⟩ (make_window_dates year month day 3).2 ∧
    dateLe (make_window_dates year month day 3).1 (make_window_dates year month day 3).2 ∧
    clamp_day year month day = max 1 (min day (daysInMonth year month)) ∧
    make_window year month day 3 =
      (isoformat (make_window_dates year month day 3).1,
       isoformat (make_window_dates year month day 3).2) := by
  have hce := clamp_day_eq year month day hm1 hm2
  have hdim := daysInMonth_ge year month
  have hvc : validDate ⟨year, month, clamp_day year month day⟩ := by
    refine ⟨by dsimp only; omega, hm1, hm2, ?_, ?_⟩ <;> simp only [hce]
    · exact Nat.le_max_left _ _
    · exact Nat.max_le.mpr ⟨by omega, Nat.min_le_right _ _⟩
  have hw1 : (make_window_dates year month day 3).1 =
      subDays ⟨year, month, clamp_day year month day⟩ 3 := rfl
  have hw2 : (make_window_dates year month day 3).2 =
      addDays ⟨year, month, clamp_day year month day⟩ 3 := rfl
  obtain ⟨hsv, hsle⟩ := subDays_three ⟨year, month, clamp_day year month day⟩ hvc hy
  obtain ⟨hav, hale⟩ := addDays_three ⟨year, month, clamp_day year month day⟩ hvc
  refine ⟨hvc, ?_, ?_, ?_, ?_, ?_, hce, rfl⟩
  · rw [hw1]; exact hsv
  · rw [hw2]; exact hav
  · rw [hw1]; exact hsle
  · rw [hw2]; exact hale
  · rw [hw1, hw2]; exact dateLe_trans _ _ _ hsle hale

/-- C9 witness: the concrete instance (2023, 2, 29) — Feb 29 in a non-leap
year — clamps to 2023-02-28 and yields the valid window
2023-02-25 … 2023-03-03. -/
theorem claim_C9_witness :
    clamp_day 2023 2 29 = 28 ∧
    make_window_dates 2023 2 29 3 = (⟨2023, 2, 25⟩, ⟨2023, 3, 3⟩) ∧
    validDate (make_window_dates 2023 2 29 3).1 ∧
    validDate (make_window_dates 2023 2 29 3).2 ∧
    dateLe (make_window_dates 2023 2 29 3).1 (make_window_dates 2023 2 29 3).2 := by
  have h := claim_C9 2023 2 29 (by decide) (by decide) (by decide)
  exact ⟨by decide, by decide, h.2.1, h.2.2.1, h.2.2.2.2.2.1⟩

/-! ## Result-interpreter lemmas -/

theorem filter_exact_eq_filter (results : List Json) (month day : Nat) :
    filter_exact_month_day results month day =
      results.filter (fun it => matchesMD it month day) := by
  induction results with
  | nil => rfl
  | cons it rest ih =>
    by_cases h : matchesMD it month day <;>
      simp [filter_exact_month_day, List.filter_cons, h, ih]

/-- C7: the exact-date filter keeps exactly the records whose derived date's
month and day equal the target, preserves the input's relative order (the
output is a sublist of the input), always excludes records whose date is
missing or unparseable, and is idempotent. -/
theorem claim_C7 (results : List Json) (month day : Nat) :
    filter_exact_month_day results month day =
      results.filter (fun it => matchesMD it month day) ∧
    List.Sublist (filter_exact_month_day results month day) results ∧
    (∀ it, it ∈ filter_exact_month_day results month day ↔
      (it ∈ results ∧ matchesMD it month day = true)) ∧
    (∀ it, parse_item_date it = none → it ∉ filter_exact_month_day results month day) ∧
    filter_exact_month_day (filter_exact_month_day results month day) month day =
      filter_exact_month_day results month day := by
  have he := filter_exact_eq_filter results month day
  refine ⟨he, ?_, ?_, ?_, ?_⟩
  · rw [he]; exact List.filter_sublist _
  · intro it; rw [he]; simp [List.mem_filter]
  · intro it hnone hmem
    rw [he] at hmem
    have hmatch := (List.mem_filter.mp hmem).2
    simp [matchesMD, hnone] at hmatch
  · rw [filter_exact_eq_filter (filter_exact_month_day results month day) month day, he]
    exact List.filter_eq_self.mpr (fun a ha => (List.mem_filter.mp ha).2)

/-- C7 witness: idempotence at a concrete one-record list. -/
theorem claim_C7_witness :
    filter_exact_month_day (filter_exact_month_day [demoRec] 7 4) 7 4 =
      filter_exact_month_day [demoRec] 7 4 :=
  (claim_C7 [demoRec] 7 4).2.2.2.2

/-- C6 counterexample: `parse_item_date` scans all elements of a `date` list
and returns the first string element that parses, whereas the claim's rule —
"the first element of a list" — would discard this list (its first element
does not parse) and fall through to the secondary published-date field. -/
theorem claim_C6_counterexample :
    parse_item_date conflictItem = some ⟨1924, 10, 15⟩ ∧
    parse_item_date_spec conflictItem = some ⟨1900, 1, 1⟩ ∧
    parse_item_date conflictItem ≠ parse_item_date_spec conflictItem := by
  exact ⟨by decide, by decide, by decide⟩

/-- C6 (amended): the derived date is obtained by trying, in order, the
`date` field (a scalar string, or — for a list — the first string element
whose first 10 characters parse as an ISO date), then the secondary
published-date fields, then the `aka` URLs, then the canonical URL; so the
scalar field wins over any URL date, and a record with only an embedded-URL
date still yields that date. -/
theorem claim_C6 :
    (∀ (item : Json) (s : String) (dd : Date),
      item.get "date" = some (.str s) → parse_iso10 s = some dd →
      parse_item_date item = some dd) ∧
    (∀ (item : Json) (xs : List Json) (dd : Date),
      item.get "date" = some (.arr xs) → dateFromKeyVal.firstParsedStr xs = some dd →
      parse_item_date item = some dd) ∧
    (∀ (item : Json) (dd : Date),
      tryKeys item ["date", "created_published_date", "created_published"] = none →
      akaDate item = some dd → parse_item_date item = some dd) ∧
    (∀ (item : Json) (dd : Date),
      tryKeys item ["date", "created_published_date", "created_published"] = none →
      akaDate item = none → canonicalUrlDate item = some dd →
      parse_item_date item = some dd) := by
  refine ⟨?_, ?_, ?_, ?_⟩
  · intro item s dd hget hp
    simp [parse_item_date, tryKeys, hget, dateFromKeyVal, hp]
  · intro item xs dd hget hp
    simp [parse_item_date, tryKeys, hget, dateFromKeyVal, hp]
  · intro item dd hkeys haka
    simp [parse_item_date, hkeys, haka]
  · intro item dd hkeys haka hurl
    simp [parse_item_date, hkeys, haka, hurl]

/-- C6 witness: a record whose only date is inside an `aka` URL yields that
date, and a scalar `date` field beats a conflicting URL date. -/
theorem claim_C6_witness :
    parse_item_date urlOnlyItem = some ⟨1924, 10, 15⟩ ∧
    parse_item_date conflictScalarUrlItem = some ⟨1924, 10, 15⟩ := by
  constructor
  · exact claim_C6.2.2.1 urlOnlyItem ⟨1924, 10, 15⟩ rfl (by decide)
  · exact claim_C6.1 conflictScalarUrlItem "1924-10-15" ⟨1924, 10, 15⟩ rfl (by decide)

/-! ## Query-encoder lemmas -/

theorem lookupParam_append (l1 l2 : List (String × String)) (k : String) :
    lookupParam (l1 ++ l2) k =
      match lookupParam l1 k with
      | some v => some v
      | none => lookupParam l2 k := by
  induction l1 with
  | nil => rfl
  | cons kv rest ih =>
    obtain ⟨k0, v0⟩ := kv
    by_cases h : k0 = k <;> simp [lookupParam, h, ih]

theorem kw_lookup_c (sd ed kw : String) (f : Bool) (dl : String) (c : Int) :
    lookupParam (query_params_kw sd ed kw f dl c) "c" =
      some (toString (max 1 (min c 100))) := by
  have hb : lookupParam (query_params_base sd ed f dl c) "c" =
      some (toString (max 1 (min c 100))) := by cases f <;> rfl
  unfold query_params_kw
  by_cases hk : trimStr kw = ""
  · rw [if_pos hk]; exact hb
  · rw [if_neg hk, lookupParam_append, hb]

theorem kw_lookup_loc (sd ed kw : String) (f : Bool) (dl : String) (c : Int) :
    lookupParam (query_params_kw sd ed kw f dl c) "location_state" = none := by
  have hb : lookupParam (query_params_base sd ed f dl c) "location_state" = none := by
    cases f <;> rfl
  unfold query_params_kw
  by_cases hk : trimStr kw = ""
  · rw [if_pos hk]; exact hb
  · rw [if_neg hk, lookupParam_append, hb]; rfl

/-- C8: the produced parameter list carries either none or all three of the
keyword parameters (decided by emptiness after stripping), carries the region
parameter iff the state is neither empty nor `"ALL"`, and always carries a
count clamped into `[1, 100]`; the URL is the base URL plus the encoding of
exactly this list. -/
theorem claim_C8 (start_date end_date state keyword dl : String)
    (front_pages_only : Bool) (count : Int) :
    (trimStr keyword = "" →
      lookupParam (query_params start_date end_date state keyword front_pages_only dl count)
        "qs" = none ∧
      lookupParam (query_params start_date end_date state keyword front_pages_only dl count)
        "ops" = none ∧
      lookupParam (query_params start_date end_date state keyword front_pages_only dl count)
        "searchType" = none) ∧
    (trimStr keyword ≠ "" →
      lookupParam (query_params start_date end_date state keyword front_pages_only dl count)
        "qs" = some (joinSep "+" (pySplit (trimStr keyword))) ∧
      lookupParam (query_params start_date end_date state keyword front_pages_only dl count)
        "ops" = some "AND" ∧
      lookupParam (query_params start_date end_date state keyword front_pages_only dl count)
        "searchType" = some "Advanced") ∧
    ((lookupParam (query_params start_date end_date state keyword front_pages_only dl count)
        "location_state").isSome = true ↔ (state ≠ "" ∧ state ≠ "ALL")) ∧
    lookupParam (query_params start_date end_date state keyword front_pages_only dl count)
      "c" = some (toString (max 1 (min count 100))) ∧
    1 ≤ max 1 (min count 100) ∧ max 1 (min count 100) ≤ 100 ∧
    build_query_url start_date end_date state keyword front_pages_only dl count =
      BASE_COLLECTION_URL ++ "?" ++
        urlencode (query_params start_date end_date state keyword front_pages_only dl count) := by
  have hkwnone : ∀ key, key = "qs" ∨ key = "ops" ∨ key = "searchType" →
      trimStr keyword = "" →
      lookupParam (query_params start_date end_date state keyword front_pages_only dl count)
        key = none := by
    intro key hkey hk
    have hb : lookupParam (query_params_base start_date end_date front_pages_only dl count)
        key = none := by
      rcases hkey with rfl | rfl | rfl <;> cases front_pages_only <;> rfl
    have hkw : lookupParam
        (query_params_kw start_date end_date keyword front_pages_only dl count) key = none := by
      unfold query_params_kw
      rw [if_pos hk]
      exact hb
    unfold query_params
    by_cases hs : state = "" ∨ state = "ALL"
    · rw [if_pos hs]; exact hkw
    · rw [if_neg hs, lookupParam_append, hkw]
      rcases hkey with rfl | rfl | rfl <;> rfl
  have hkwsome : ∀ key v, trimStr keyword ≠ "" →
      lookupParam [("qs", joinSep "+" (pySplit (trimStr keyword))), ("ops", "AND"),
        ("searchType", "Advanced")] key = some v →
      (key = "qs" ∨ key = "ops" ∨ key = "searchType") →
      lookupParam (query_params start_date end_date state keyword front_pages_only dl count)
        key = some v := by
    intro key v hk htail hkey
    have hb : lookupParam (query_params_base start_date end_date front_pages_only dl count)
        key = none := by
      rcases hkey with rfl | rfl | rfl <;> cases front_pages_only <;> rfl
    have hkw : lookupParam
        (query_params_kw start_date end_date keyword front_pages_only dl count) key = some v := by
      unfold query_params_kw
      rw [if_neg hk, lookupParam_append, hb]
      exact htail
    unfold query_params
    by_cases hs : state = "" ∨ state = "ALL"
    · rw [if_pos hs]; exact hkw
    · rw [if_neg hs, lookupParam_append, hkw]
  refine ⟨?_, ?_, ?_, ?_, by omega, by omega, rfl⟩
  · intro hk
    exact ⟨hkwnone "qs" (Or.inl rfl) hk, hkwnone "ops" (Or.inr (Or.inl rfl)) hk,
           hkwnone "searchType" (Or.inr (Or.inr rfl)) hk⟩
  · intro hk
    exact ⟨hkwsome "qs" _ hk rfl (Or.inl rfl), hkwsome "ops" _ hk rfl (Or.inr (Or.inl rfl)),
           hkwsome "searchType" _ hk rfl (Or.inr (Or.inr rfl))⟩
  · unfold query_params
    by_cases hs : state = "" ∨ state = "ALL"
    · rw [if_pos hs, kw_lookup_loc]
      simp only [Option.isSome_none, Bool.false_eq_true, false_iff]
      intro hcon
      rcases hs with hs | hs
      · exact hcon.1 hs
      · exact hcon.2 hs
    · rw [if_neg hs, lookupParam_append, kw_lookup_loc]
      constructor
      · intro _
        constructor
        · intro he; exact hs (Or.inl he)
        · intro he; exact hs (Or.inr he)
      · intro _; rfl
  · unfold query_params
    by_cases hs : state = "" ∨ state = "ALL"
    · rw [if_pos hs, kw_lookup_c]
    · rw [if_neg hs, lookupParam_append, kw_lookup_c]

/-- C8 witness: concrete instances — an empty keyword omits the keyword trio
and count 0 clamps to 1; a non-empty keyword yields `ops` and count 500
clamps to 100. -/
theorem claim_C8_witness :
    lookupParam (query_params "1924-10-12" "1924-10-18" "ALL" "" true "page" 0) "qs" = none ∧
    lookupParam (query_params "1924-10-12" "1924-10-18" "california" "cat dog" true "page" 500)
      "ops" = some "AND" ∧
    lookupParam (query_params "1924-10-12" "1924-10-18" "ALL" "" true "page" 0) "c" = some "1" ∧
    lookupParam (query_params "1924-10-12" "1924-10-18" "california" "cat dog" true "page" 500)
      "c" = some "100" ∧
    (lookupParam (query_params "1924-10-12" "1924-10-18" "california" "cat dog" true "page" 500)
      "location_state").isSome = true := by
  have h1 := claim_C8 "1924-10-12" "1924-10-18" "ALL" "" "page" true 0
  have h2 := claim_C8 "1924-10-12" "1924-10-18" "california" "cat dog" "page" true 500
  refine ⟨(h1.1 (by decide)).1, (h2.2.1 (by decide)).2.1, ?_, ?_, ?_⟩
  · have he : some (toString (max 1 (min (0 : Int) 100))) = some "1" := by decide
    exact (h1.2.2.2.1).trans he
  · have he : some (toString (max 1 (min (500 : Int) 100))) = some "100" := by decide
    exact (h2.2.2.2.1).trans he
  · exact (h2.2.2.1).mpr (by decide)

/-! ## Fetcher lemmas -/

/-- C4: on a successful HTTP status whose content type does not name a JSON
media type, the fetcher fails with a message stating the unexpected content
type and a snippet that is a prefix of the body, and the JSON parser is never
consulted (the outcome is independent of it). -/
theorem claim_C4 (parseJson : String → Option Json) (url : String) (status : Option Nat)
    (contentType body : String)
    (h : containsSub "json" (lowerStr contentType) = false) :
    fetch_json_debug parseJson url (.success status contentType body) =
      (none, { ok := false, status := status, content_type := some contentType,
               error := some ("Non-JSON response (Content-Type: " ++ contentType ++ ")"),
               snippet := some (strTake 800 body), url := url }) ∧
    (∀ parseJson2 : String → Option Json,
      fetch_json_debug parseJson url (.success status contentType body) =
        fetch_json_debug parseJson2 url (.success status contentType body)) ∧
    (∃ rest, body.data = (strTake 800 body).data ++ rest) := by
  refine ⟨?_, ?_, ⟨body.data.drop 800, (List.take_append_drop 800 body.data).symm⟩⟩
  · simp [fetch_json_debug, h]
  · intro parseJson2
    simp [fetch_json_debug, h]

/-- C4 witness: HTTP 200 with `text/html` is classified as an
unexpected-content-type failure, not a parse failure. -/
theorem claim_C4_witness :
    (fetch_json_debug (fun _ => none) "u"
      (.success (some 200) "text/html" "<html>blocked</html>")).2.error =
      some "Non-JSON response (Content-Type: text/html)" ∧
    (fetch_json_debug (fun _ => none) "u"
      (.success (some 200) "text/html" "<html>blocked</html>")).1 = none := by
  have h := claim_C4 (fun _ => none) "u" (some 200) "text/html" "<html>blocked</html>" (by decide)
  rw [h.1]
  exact ⟨by decide, rfl⟩

/-! ## Decade-scanner lemmas -/

theorem strData_append (a b : String) : (a ++ b).data = a.data ++ b.data := by
  rcases a with ⟨da⟩
  rcases b with ⟨db⟩
  rfl

theorem build_query_url_ne (sd ed st kw : String) (f : Bool) (dl : String) (c : Int) :
    build_query_url sd ed st kw f dl c ≠ "" := by
  intro h
  unfold build_query_url at h
  have hd := congrArg String.data h
  rw [strData_append, strData_append] at hd
  have h0 : String.data "" = [] := rfl
  rw [h0] at hd
  have h1 := (List.append_eq_nil.mp hd).1
  have h2 := (List.append_eq_nil.mp h1).1
  exact (by decide : BASE_COLLECTION_URL.data ≠ []) h2

theorem phase1_fst (fetch : Fetch) (month day : Nat) (state keyword : String)
    (front_pages_only : Bool) :
    ∀ (ys : List Nat) (last : Option Debug),
      (phase1 fetch month day state keyword front_pages_only ys last).1 =
        ys.find? (hitFor fetch month day state keyword front_pages_only) := by
  intro ys
  induction ys with
  | nil => intro last; rfl
  | cons y ys ih =>
    intro last
    by_cases h : hitFor fetch month day state keyword front_pages_only y
    · rw [List.find?_cons_of_pos _ h]
      simp [phase1, h]
    · rw [List.find?_cons_of_neg _ h]
      simp only [phase1, h, Bool.false_eq_true, if_false]
      exact ih _

theorem phase1_all_miss (fetch : Fetch) (month day : Nat) (state keyword : String)
    (front_pages_only : Bool) :
    ∀ (ys : List Nat),
      (∀ y ∈ ys, hitFor fetch month day state keyword front_pages_only y = false) →
      ∀ (last : Option Debug),
        phase1 fetch month day state keyword front_pages_only ys last =
          (none, ys.foldl
            (fun _ y => some (dbgFor fetch month day state keyword front_pages_only y)) last) := by
  intro ys
  induction ys with
  | nil => intro _ last; rfl
  | cons y ys ih =>
    intro h last
    have hy : hitFor fetch month day state keyword front_pages_only y = false :=
      h y (List.mem_cons_self y ys)
    rw [List.foldl_cons]
    have hstep : phase1 fetch month day state keyword front_pages_only (y :: ys) last =
        phase1 fetch month day state keyword front_pages_only ys
          (some (dbgFor fetch month day state keyword front_pages_only y)) := by
      simp [phase1, hy]
    rw [hstep]
    exact ih (fun z hz => h z (List.mem_cons_of_mem y hz)) _

theorem phase2_found (fetch : Fetch) (month day : Nat) (state keyword : String)
    (front_pages_only : Bool) :
    ∀ (ys : List Nat) (y : Nat),
      ys.find? (hitFor fetch month day state keyword front_pages_only) = some y →
      ∀ (last : Option Debug),
        phase2 fetch month day state keyword front_pages_only ys last =
          ⟨some y, (exactFor fetch month day state keyword front_pages_only y).head?,
           urlFor month day state keyword front_pages_only y,
           some (dbgFor fetch month day state keyword front_pages_only y),
           (exactFor fetch month day state keyword front_pages_only y).length,
           windowFor month day y⟩ := by
  intro ys
  induction ys with
  | nil => intro y hy; simp [List.find?] at hy
  | cons z zs ih =>
    intro y hy last
    by_cases h : hitFor fetch month day state keyword front_pages_only z
    · rw [List.find?_cons_of_pos _ h] at hy
      obtain rfl := Option.some.inj hy
      simp [phase2, h]
    · rw [List.find?_cons_of_neg _ h] at hy
      have hstep : phase2 fetch month day state keyword front_pages_only (z :: zs) last =
          phase2 fetch month day state keyword front_pages_only zs
            (some (dbgFor fetch month day state keyword front_pages_only z)) := by
        simp [phase2, h]
      rw [hstep]
      exact ih y hy _

theorem phase2_all_miss (fetch : Fetch) (month day : Nat) (state keyword : String)
    (front_pages_only : Bool) :
    ∀ (ys : List Nat),
      (∀ y ∈ ys, hitFor fetch month day state keyword front_pages_only y = false) →
      ∀ (last : Option Debug),
        phase2 fetch month day state keyword front_pages_only ys last =
          ⟨none, none, "",
           ys.foldl (fun _ y => some (dbgFor fetch month day state keyword front_pages_only y))
             last, 0, ("", "")⟩ := by
  intro ys
  induction ys with
  | nil => intro _ last; rfl
  | cons y ys ih =>
    intro h last
    have hy : hitFor fetch month day state keyword front_pages_only y = false :=
      h y (List.mem_cons_self y ys)
    rw [List.foldl_cons]
    have hstep : phase2 fetch month day state keyword front_pages_only (y :: ys) last =
        phase2 fetch month day state keyword front_pages_only ys
          (some (dbgFor fetch month day state keyword front_pages_only y)) := by
      simp [phase2, hy]
    rw [hstep]
    exact ih (fun z hz => h z (List.mem_cons_of_mem y hz)) _

theorem descList_foldl (g : Nat → Debug) :
    ∀ (n top : Nat) (init : Option Debug), 1 ≤ n →
      (descList top n).foldl (fun _ y => some (g y)) init = some (g (top + 1 - n)) := by
  intro n
  induction n with
  | zero => intro top init h; omega
  | succ k ih =>
    intro top init _
    cases k with
    | zero => simp [descList, List.foldl]
    | succ k2 =>
      have harg : top - 1 + 1 - (k2 + 1) = top + 1 - (k2 + 1 + 1) := by omega
      have hcons : descList top (k2 + 1 + 1) = top :: descList (top - 1) (k2 + 1) := rfl
      rw [hcons, List.foldl_cons, ih (top - 1) (some (g top)) (by omega), harg]

theorem descList_mem :
    ∀ (n top z : Nat), z ∈ descList top n → z ≤ top ∧ top < z + n := by
  intro n
  induction n with
  | zero => intro top z hz; simp [descList] at hz
  | succ k ih =>
    intro top z hz
    simp only [descList, List.mem_cons] at hz
    rcases hz with rfl | hz2
    · omega
    · have := ih (top - 1) z hz2
      omega

theorem descList_find_max (p : Nat → Bool) :
    ∀ (n top y : Nat), (descList top n).find? p = some y →
      p y = true ∧ y ≤ top ∧ ∀ z, y < z → z ≤ top → p z = false := by
  intro n
  induction n with
  | zero => intro top y h; simp [descList, List.find?] at h
  | succ k ih =>
    intro top y h
    simp only [descList] at h
    by_cases hp : p top
    · rw [List.find?_cons_of_pos _ hp] at h
      obtain rfl := Option.some.inj h
      refine ⟨hp, Nat.le_refl _, ?_⟩
      intro z h1 h2
      exact absurd h2 (Nat.not_le.mpr h1)
    · rw [List.find?_cons_of_neg _ hp] at h
      obtain ⟨hpy, hle, hmax⟩ := ih (top - 1) y h
      refine ⟨hpy, by omega, ?_⟩
      intro z h1 h2
      by_cases hz : z = top
      · subst hz
        simpa using hp
      · exact hmax z h1 (by omega)

theorem scanYears_mem_bounds : ∀ y ∈ scanYears, 1690 ≤ y ∧ y ≤ 1960 := by decide

theorem hitFor_false_of (fetch : Fetch) (month day : Nat) (state keyword : String)
    (front_pages_only : Bool) (y : Nat)
    (h : payloadFor fetch month day state keyword front_pages_only y = none ∨
         exactFor fetch month day state keyword front_pages_only y = []) :
    hitFor fetch month day state keyword front_pages_only y = false := by
  unfold hitFor
  rcases hp : payloadFor fetch month day state keyword front_pages_only y with _ | p
  · rfl
  · rcases h with h | h
    · rw [hp] at h
      exact Option.noConfusion h
    · unfold exactFor at h
      rw [hp] at h
      simp only at h
      simp [h]

theorem hitFor_head (fetch : Fetch) (month day : Nat) (state keyword : String)
    (front_pages_only : Bool) (y : Nat)
    (h : hitFor fetch month day state keyword front_pages_only y = true) :
    ((exactFor fetch month day state keyword front_pages_only y).head?).isSome = true := by
  unfold hitFor at h
  unfold exactFor
  rcases hp : payloadFor fetch month day state keyword front_pages_only y with _ | p
  · rw [hp] at h
    simp at h
  · rw [hp] at h
    simp only at h
    rw [Bool.and_eq_true] at h
    obtain ⟨-, h2⟩ := h
    rcases hl : filter_exact_month_day (parse_results p) month day with _ | ⟨e, rest⟩
    · rw [hl] at h2
      simp at h2
    · show (filter_exact_month_day (parse_results p) month day).head?.isSome = true
      rw [hl]
      rfl

/-- C1: when Phase 1 stops at anchor `a` and the descending Phase 2 probe
list (from `min (a + 9) 1963` down to `a`) has `y` as its first hit, the scan
returns exactly year `y`, that year's first exact match in the archive's
returned order, the request URL used, the exact-match count, and the window;
moreover `y` is the most recent hit year in the refined range. -/
theorem claim_C1 (fetch : Fetch) (month day : Nat) (state keyword : String)
    (front_pages_only : Bool) (a y : Nat) (_hwf : fetchWF fetch)
    (h1 : (phase1 fetch month day state keyword front_pages_only scanYears none).1 = some a)
    (h2 : (phase2Years a).find? (hitFor fetch month day state keyword front_pages_only) =
      some y) :
    decade_step_most_recent fetch month day state keyword front_pages_only =
      ⟨some y, (exactFor fetch month day state keyword front_pages_only y).head?,
       urlFor month day state keyword front_pages_only y,
       some (dbgFor fetch month day state keyword front_pages_only y),
       (exactFor fetch month day state keyword front_pages_only y).length,
       windowFor month day y⟩ ∧
    hitFor fetch month day state keyword front_pages_only y = true ∧
    a ≤ y ∧ y ≤ min (a + 9) 1963 ∧
    (∀ z, y < z → z ≤ min (a + 9) 1963 →
      hitFor fetch month day state keyword front_pages_only z = false) := by
  rcases hph : phase1 fetch month day state keyword front_pages_only scanYears none
    with ⟨p1, p2⟩
  rw [hph] at h1
  have hp1 : p1 = some a := h1
  subst hp1
  have heq : decade_step_most_recent fetch month day state keyword front_pages_only =
      phase2 fetch month day state keyword front_pages_only (phase2Years a) p2 := by
    unfold decade_step_most_recent
    rw [hph]
  obtain ⟨hpy, hyle, hmax⟩ := descList_find_max _ _ _ _ h2
  have hmem := List.mem_of_find?_eq_some h2
  have hbounds := descList_mem _ _ _ hmem
  refine ⟨?_, hpy, ?_, ?_, ?_⟩
  · rw [heq]
    exact phase2_found fetch month day state keyword front_pages_only (phase2Years a) y h2 p2
  · omega
  · exact hbounds.1
  · intro z hz1 hz2
    exact hmax z hz1 hz2

/-- C1 witness: under a constant oracle whose payload always holds one exact
July 4 record, Phase 1 stops at anchor 1960 and Phase 2 returns year 1963. -/
theorem claim_C1_witness :
    (decade_step_most_recent demoFetch 7 4 "ALL" "" true).year = some 1963 := by
  have h := claim_C1 demoFetch 7 4 "ALL" "" true 1960 1963 (fun _ => rfl)
    (by decide) (by decide)
  rw [h.1]

/-- C2: the scan result is jointly present — matched year, matched record,
and request URL — exactly on success; on every failure path all three are
absent (with zero count and an empty window), leaving only the diagnostic. -/
theorem claim_C2 (fetch : Fetch) (month day : Nat) (state keyword : String)
    (front_pages_only : Bool) (_hwf : fetchWF fetch) :
    ((decade_step_most_recent fetch month day state keyword front_pages_only).year.isSome =
        true ∧
     (decade_step_most_recent fetch month day state keyword front_pages_only).item.isSome =
        true ∧
     (decade_step_most_recent fetch month day state keyword front_pages_only).url ≠ "") ∨
    ((decade_step_most_recent fetch month day state keyword front_pages_only).year = none ∧
     (decade_step_most_recent fetch month day state keyword front_pages_only).item = none ∧
     (decade_step_most_recent fetch month day state keyword front_pages_only).url = "" ∧
     (decade_step_most_recent fetch month day state keyword front_pages_only).count = 0 ∧
     (decade_step_most_recent fetch month day state keyword front_pages_only).win =
       ("", "")) := by
  rcases hph : phase1 fetch month day state keyword front_pages_only scanYears none
    with ⟨p1, p2⟩
  cases p1 with
  | none =>
    right
    have heq : decade_step_most_recent fetch month day state keyword front_pages_only =
        ⟨none, none, "", p2, 0, ("", "")⟩ := by
      unfold decade_step_most_recent
      rw [hph]
    rw [heq]
    exact ⟨rfl, rfl, rfl, rfl, rfl⟩
  | some a =>
    have heq : decade_step_most_recent fetch month day state keyword front_pages_only =
        phase2 fetch month day state keyword front_pages_only (phase2Years a) p2 := by
      unfold decade_step_most_recent
      rw [hph]
    rcases hf : (phase2Years a).find? (hitFor fetch month day state keyword front_pages_only)
      with _ | y
    · right
      have hmiss : ∀ z ∈ phase2Years a,
          hitFor fetch month day state keyword front_pages_only z = false := by
        intro z hz
        have := List.find?_eq_none.mp hf z hz
        simpa using this
      rw [heq, phase2_all_miss fetch month day state keyword front_pages_only
        (phase2Years a) hmiss p2]
      exact ⟨rfl, rfl, rfl, rfl, rfl⟩
    · left
      have hhit := List.find?_some hf
      rw [heq, phase2_found fetch month day state keyword front_pages_only
        (phase2Years a) y hf p2]
      exact ⟨rfl, hitFor_head fetch month day state keyword front_pages_only y hhit,
        build_query_url_ne _ _ _ _ _ _ _⟩

/-- C2 witness: the invariant at a concrete successful scan. -/
theorem claim_C2_witness :
    ((decade_step_most_recent demoFetch 7 4 "ALL" "" true).year.isSome = true ∧
     (decade_step_most_recent demoFetch 7 4 "ALL" "" true).item.isSome = true ∧
     (decade_step_most_recent demoFetch 7 4 "ALL" "" true).url ≠ "") ∨
    ((decade_step_most_recent demoFetch 7 4 "ALL" "" true).year = none ∧
     (decade_step_most_recent demoFetch 7 4 "ALL" "" true).item = none ∧
     (decade_step_most_recent demoFetch 7 4 "ALL" "" true).url = "" ∧
     (decade_step_most_recent demoFetch 7 4 "ALL" "" true).count = 0 ∧
     (decade_step_most_recent demoFetch 7 4 "ALL" "" true).win = ("", "")) :=
  claim_C2 demoFetch 7 4 "ALL" "" true (fun _ => rfl)

/-- C3: a failed fetch has exactly the control-flow effect of a year with
zero exact matches — the hit test is false and each loop just moves to the
next candidate year — and when the scan as a whole finds nothing, the
surfaced diagnostic is that of the last attempted call: anchor 1690 when
Phase 1 never hits, and the anchor year itself when Phase 2 misses
throughout. -/
theorem claim_C3 (fetch : Fetch) (month day : Nat) (state keyword : String)
    (front_pages_only : Bool) (_hwf : fetchWF fetch) :
    (∀ y, (payloadFor fetch month day state keyword front_pages_only y = none ∨
           exactFor fetch month day state keyword front_pages_only y = []) →
      hitFor fetch month day state keyword front_pages_only y = false) ∧
    (∀ y ys last, hitFor fetch month day state keyword front_pages_only y = false →
      phase1 fetch month day state keyword front_pages_only (y :: ys) last =
        phase1 fetch month day state keyword front_pages_only ys
          (some (dbgFor fetch month day state keyword front_pages_only y))) ∧
    (∀ y ys last, hitFor fetch month day state keyword front_pages_only y = false →
      phase2 fetch month day state keyword front_pages_only (y :: ys) last =
        phase2 fetch month day state keyword front_pages_only ys
          (some (dbgFor fetch month day state keyword front_pages_only y))) ∧
    ((phase1 fetch month day state keyword front_pages_only scanYears none).1 = none →
      (decade_step_most_recent fetch month day state keyword front_pages_only).dbg =
        some (dbgFor fetch month day state keyword front_pages_only 1690)) ∧
    (∀ a, (phase1 fetch month day state keyword front_pages_only scanYears none).1 = some a →
      (∀ z ∈ phase2Years a, hitFor fetch month day state keyword front_pages_only z = false) →
      (decade_step_most_recent fetch month day state keyword front_pages_only).dbg =
        some (dbgFor fetch month day state keyword front_pages_only a)) := by
  refine ⟨?_, ?_, ?_, ?_, ?_⟩
  · intro y h
    exact hitFor_false_of fetch month day state keyword front_pages_only y h
  · intro y ys last h
    simp [phase1, h]
  · intro y ys last h
    simp [phase2, h]
  · intro h
    have hfind := phase1_fst fetch month day state keyword front_pages_only scanYears none
    rw [h] at hfind
    have hmiss : ∀ z ∈ scanYears,
        hitFor fetch month day state keyword front_pages_only z = false := by
      intro z hz
      have := List.find?_eq_none.mp hfind.symm z hz
      simpa using this
    have hfold := phase1_all_miss fetch month day state keyword front_pages_only
      scanYears hmiss none
    have heq : decade_step_most_recent fetch month day state keyword front_pages_only =
        ⟨none, none, "",
         scanYears.foldl
           (fun _ y => some (dbgFor fetch month day state keyword front_pages_only y)) none,
         0, ("", "")⟩ := by
      unfold decade_step_most_recent
      rw [hfold]
    rw [heq]
    rfl
  · intro a h hmiss
    rcases hph : phase1 fetch month day state keyword front_pages_only scanYears none
      with ⟨p1, p2⟩
    rw [hph] at h
    have hp1 : p1 = some a := h
    subst hp1
    have heq : decade_step_most_recent fetch month day state keyword front_pages_only =
        phase2 fetch month day state keyword front_pages_only (phase2Years a) p2 := by
      unfold decade_step_most_recent
      rw [hph]
    rw [heq, phase2_all_miss fetch month day state keyword front_pages_only
      (phase2Years a) hmiss p2]
    have ha : a ∈ scanYears := by
      have hfind := phase1_fst fetch month day state keyword front_pages_only scanYears none
      rw [hph] at hfind
      exact List.mem_of_find?_eq_some hfind.symm
    have hb := scanYears_mem_bounds a ha
    have h1n : 1 ≤ min (a + 9) 1963 + 1 - a := by omega
    have hfold := descList_foldl (dbgFor fetch month day state keyword front_pages_only)
      (min (a + 9) 1963 + 1 - a) (min (a + 9) 1963) p2 h1n
    have harg : min (a + 9) 1963 + 1 - (min (a + 9) 1963 + 1 - a) = a := by omega
    show (descList (min (a + 9) 1963) (min (a + 9) 1963 + 1 - a)).foldl
        (fun _ z => some (dbgFor fetch month day state keyword front_pages_only z)) p2 =
      some (dbgFor fetch month day state keyword front_pages_only a)
    rw [hfold, harg]

/-- C3 witness: a transport failure makes the hit test false. -/
theorem claim_C3_witness :
    hitFor failFetch 7 4 "ALL" "" true 1960 = false :=
  (claim_C3 failFetch 7 4 "ALL" "" true (fun _ => rfl)).1 1960 (Or.inl rfl)

/-- C5: when no probed year has an exact match, the scanner issues exactly
one query per decade anchor — 1960, 1950, …, 1690, 28 anchors in all — makes
no Phase 2 queries, and terminates with no result. -/
theorem claim_C5 (fetch : Fetch) (month day : Nat) (state keyword : String)
    (front_pages_only : Bool) (_hwf : fetchWF fetch)
    (h : ∀ y ∈ scanYears, hitFor fetch month day state keyword front_pages_only y = false) :
    probedYears fetch month day state keyword front_pages_only = scanYears ∧
    scanYears = [1960, 1950, 1940, 1930, 1920, 1910, 1900, 1890, 1880, 1870, 1860, 1850,
                 1840, 1830, 1820, 1810, 1800, 1790, 1780, 1770, 1760, 1750, 1740, 1730,
                 1720, 1710, 1700, 1690] ∧
    scanYears.length = 28 ∧
    (decade_step_most_recent fetch month day state keyword front_pages_only).year = none ∧
    (decade_step_most_recent fetch month day state keyword front_pages_only).item = none ∧
    (decade_step_most_recent fetch month day state keyword front_pages_only).url = "" := by
  have hfold := phase1_all_miss fetch month day state keyword front_pages_only scanYears h none
  have hfst : (phase1 fetch month day state keyword front_pages_only scanYears none).1 =
      none := by
    rw [hfold]
  have hprobe : ∀ ys : List Nat,
      (∀ y ∈ ys, hitFor fetch month day state keyword front_pages_only y = false) →
      phase1Probed fetch month day state keyword front_pages_only ys = ys := by
    intro ys
    induction ys with
    | nil => intro _; rfl
    | cons y ys ih =>
      intro hy
      have h0 := hy y (List.mem_cons_self y ys)
      simp [phase1Probed, h0, ih (fun z hz => hy z (List.mem_cons_of_mem y hz))]
  have heq : decade_step_most_recent fetch month day state keyword front_pages_only =
      ⟨none, none, "",
       scanYears.foldl
         (fun _ y => some (dbgFor fetch month day state keyword front_pages_only y)) none,
       0, ("", "")⟩ := by
    unfold decade_step_most_recent
    rw [hfold]
  refine ⟨?_, rfl, rfl, ?_, ?_, ?_⟩
  · unfold probedYears
    rw [hfst]
    exact hprobe scanYears h
  · rw [heq]
  · rw [heq]
  · rw [heq]

/-- C5 witness: with every request failing, exactly the 28 anchors are
queried and the scan ends with no result. -/
theorem claim_C5_witness :
    probedYears failFetch 7 4 "ALL" "" true = scanYears ∧
    (decade_step_most_recent failFetch 7 4 "ALL" "" true).year = none := by
  have h := claim_C5 failFetch 7 4 "ALL" "" true (fun _ => rfl) (fun y _ => rfl)
  exact ⟨h.1, h.2.2.2.1⟩

/-- C10: a successful fetch whose payload is the empty JSON object is treated
exactly like a failed fetch: the payload is present but falsy, the year does
not count as a hit, and both loops simply continue with the next candidate
year — the scanner tests truthiness, not mere presence. -/
theorem claim_C10 (fetch : Fetch) (month day : Nat) (state keyword : String)
    (front_pages_only : Bool) (y : Nat) (_hwf : fetchWF fetch)
    (h : payloadFor fetch month day state keyword front_pages_only y = some (Json.obj [])) :
    (payloadFor fetch month day state keyword front_pages_only y).isSome = true ∧
    hitFor fetch month day state keyword front_pages_only y = false ∧
    (∀ ys last, phase1 fetch month day state keyword front_pages_only (y :: ys) last =
      phase1 fetch month day state keyword front_pages_only ys
        (some (dbgFor fetch month day state keyword front_pages_only y))) ∧
    (∀ ys last, phase2 fetch month day state keyword front_pages_only (y :: ys) last =
      phase2 fetch month day state keyword front_pages_only ys
        (some (dbgFor fetch month day state keyword front_pages_only y))) := by
  have hf : hitFor fetch month day state keyword front_pages_only y = false := by
    simp [hitFor, h, Json.truthy]
  refine ⟨by rw [h]; rfl, hf, ?_, ?_⟩
  · intro ys last
    simp [phase1, hf]
  · intro ys last
    simp [phase2, hf]

/-- C10 witness: the empty-object oracle is a present-but-falsy payload and
no hit. -/
theorem claim_C10_witness :
    hitFor emptyObjFetch 7 4 "ALL" "" true 1960 = false ∧
    (payloadFor emptyObjFetch 7 4 "ALL" "" true 1960).isSome = true := by
  have h := claim_C10 emptyObjFetch 7 4 "ALL" "" true 1960 (fun _ => rfl) rfl
  exact ⟨h.2.1, h.1⟩
